import Mathlib

/-!
Verification of the kitchen expense tracker (Express + Mongoose backend in
src/backend/server.js, browser client in src/script.js) against its
natural-language specification.

The embedding is shallow: JSON/JavaScript values occurring in request bodies
are modelled by the inductive type JVal, JavaScript numbers by the rationals
(the arithmetic the handlers perform — comparison, addition, subtraction — is
exact on the values the application manipulates), the Mongo document store by
explicit lists of user and expense records, and each Express handler by a
pure function from the store and the request to a response and the new store.
External collaborators (bcrypt, jwt, MongoDB ordering, mongoose casting) are
modelled by small explicit functions noted at their definitions.
-/

/-- A JavaScript value as it can appear in a parsed JSON request body or flow
through the handlers: `undef` models an absent field (`undefined`), `nan`
models the number NaN (producible by computation, not by JSON). -/
inductive JVal where
  | undef
  | null
  | nan
  | bool (b : Bool)
  | num (q : ℚ)
  | str (s : String)
  deriving DecidableEq

/-- JavaScript truthiness: undefined, null, NaN, false, 0 and the empty
string are falsy. -/
def JVal.falsy : JVal → Bool
  | .undef => true
  | .null => true
  | .nan => true
  | .bool b => !b
  | .num q => q == 0
  | .str s => s == ""

/-- Numeric value of a list of decimal digit characters. -/
def digitsVal (ds : List Char) : Nat :=
  ds.foldl (fun a c => a * 10 + (c.toNat - 48)) 0

/-- Parse an optional sign followed by decimal digits with an optional
fractional part, returning the value and the unconsumed characters. This is
the decimal fragment of the ECMAScript StrDecimalLiteral grammar; exponents,
hex and Infinity are omitted (the application never produces them). -/
def parseDecCore (cs : List Char) : Option (ℚ × List Char) :=
  let signSplit : Bool × List Char :=
    match cs with
    | '-' :: rest => (true, rest)
    | '+' :: rest => (false, rest)
    | _ => (false, cs)
  let neg := signSplit.1
  let cs1 := signSplit.2
  let ip := cs1.takeWhile Char.isDigit
  let r1 := cs1.dropWhile Char.isDigit
  match r1 with
  | '.' :: r2 =>
      let fp := r2.takeWhile Char.isDigit
      let r3 := r2.dropWhile Char.isDigit
      if ip.isEmpty && fp.isEmpty then none
      else
        let mag : ℚ := (digitsVal ip : ℚ) + (digitsVal fp : ℚ) / (10 : ℚ) ^ fp.length
        some (if neg then -mag else mag, r3)
  | _ =>
      if ip.isEmpty then none
      else some (if neg then -(digitsVal ip : ℚ) else (digitsVal ip : ℚ), r1)

/-- ECMAScript ToNumber on a string (the behaviour of `Number(s)` and of the
implicit coercions in `isNaN(s)` and `s < 0`): surrounding whitespace is
ignored, the empty string is 0, otherwise the whole string must be a decimal
literal; `none` models NaN. -/
def jsStrToNumber (s : String) : Option ℚ :=
  let cs := ((s.toList.dropWhile Char.isWhitespace).reverse.dropWhile Char.isWhitespace).reverse
  match cs with
  | [] => some 0
  | _ :: _ =>
      match parseDecCore cs with
      | some (q, []) => some q
      | _ => none

/-- JavaScript `parseFloat` on a string: leading whitespace skipped, longest
numeric prefix parsed, trailing characters ignored; `none` models NaN. -/
def jsParseFloatStr (s : String) : Option ℚ :=
  match parseDecCore (s.toList.dropWhile Char.isWhitespace) with
  | some (q, _) => some q
  | none => none

/-- ECMAScript ToNumber; `none` models NaN. -/
def JVal.toNumber : JVal → Option ℚ
  | .undef => none
  | .null => some 0
  | .nan => none
  | .bool b => some (if b then 1 else 0)
  | .num q => some q
  | .str s => jsStrToNumber s

/-- Decimal digits of the fractional part `r / d` (long division), with fuel;
used only to model JavaScript number-to-string conversion for the
finite-decimal values the application manipulates. -/
def fracDigits : Nat → Nat → Nat → String
  | _, _, 0 => ""
  | r, d, fuel + 1 =>
      if r = 0 then ""
      else Nat.repr (r * 10 / d) ++ fracDigits (r * 10 % d) d fuel

/-- Decimal rendering of a rational, modelling JavaScript number-to-string
conversion for the finite-decimal values that occur in this application. -/
def qToString (q : ℚ) : String :=
  let sign := if q.num < 0 then "-" else ""
  let n := q.num.natAbs
  let d := q.den
  if n % d = 0 then sign ++ Nat.repr (n / d)
  else sign ++ Nat.repr (n / d) ++ "." ++ fracDigits (n % d) d 30

/-- ECMAScript ToString on the values JVal models. -/
def JVal.toJsString : JVal → String
  | .undef => "undefined"
  | .null => "null"
  | .nan => "NaN"
  | .bool b => if b then "true" else "false"
  | .num q => qToString q
  | .str s => s

def JVal.isStr : JVal → Bool
  | .str _ => true
  | _ => false

/-- JavaScript binary `+` on primitives: string concatenation when either
operand is a string, numeric addition otherwise (NaN when an operand has no
numeric value). -/
def jsAdd (a b : JVal) : JVal :=
  if a.isStr || b.isStr then .str (a.toJsString ++ b.toJsString)
  else
    match a.toNumber, b.toNumber with
    | some x, some y => .num (x + y)
    | _, _ => .nan

/-- The JavaScript comparison `v < c` for a number literal `c`: both sides
are coerced with ToNumber and the comparison is false when either is NaN. -/
def jsLtNum (v : JVal) (c : ℚ) : Bool :=
  match v.toNumber with
  | some x => decide (x < c)
  | none => false

/-- The JavaScript comparison `v <= c` for a number literal `c`. -/
def jsLeNum (v : JVal) (c : ℚ) : Bool :=
  match v.toNumber with
  | some x => decide (x ≤ c)
  | none => false

/-- JavaScript global `isNaN`: ToNumber yields NaN. -/
def jsIsNaN (v : JVal) : Bool := v.toNumber.isNone

/-- The JavaScript expression `v.length < k` as used by the signup handler:
`.length` of a non-string is `undefined` and `undefined < k` is false. -/
def jsLengthLt (v : JVal) (k : Nat) : Bool :=
  match v with
  | .str s => decide (s.length < k)
  | _ => false

/-- Strict equality `v === s` between a request value and a stored string
field, which is also how a Mongo equality query on a string field matches. -/
def jvalEqStr (v : JVal) (s : String) : Bool :=
  match v with
  | .str t => t == s
  | _ => false

/-- Mongoose casting of a value assigned to a `Number` schema path
(`totalBudget`): null and undefined are kept, numbers are kept, strings and
booleans are converted to their numeric value. A string with no numeric
value would make the subsequent save throw a CastError; that case is
unreachable behind the handlers' guards and is modelled as the identity. -/
def mongooseCastNumber (v : JVal) : JVal :=
  match v with
  | .null => .null
  | .undef => .undef
  | .nan => .nan
  | .bool b => .num (if b then 1 else 0)
  | .num q => .num q
  | .str s =>
      match jsStrToNumber s with
      | some q => .num q
      | none => .str s

/-- Mongoose casting of a value assigned to a required `String` schema path;
the handlers' truthiness guards ensure the value is never null or undefined
here, so this is ToString. -/
def mongooseCastString (v : JVal) : String := v.toJsString

/-! ## The document store and the schema hooks -/

/-- A stored user document (the `User` mongoose model): _id, username, email,
password (hashed by the pre-save hook), totalBudget (a JavaScript value,
since the budget handlers assign the raw request value subject only to the
schema's number cast), createdAt. Ids and timestamps are modelled by `Nat`. -/
structure User where
  id : Nat
  username : String
  email : String
  password : String
  totalBudget : JVal
  createdAt : Nat
  deriving DecidableEq

/-- A stored expense document (the `Expense` mongoose model). `amount` is a
number: the required `Number` schema path rejects NaN, so a save of a
NaN-amount document throws instead of persisting and the collection only
ever holds numeric amounts. The other payload fields are the request values
after the schema's string cast. -/
structure Expense where
  id : Nat
  userId : Nat
  date : String
  item : String
  amount : ℚ
  quantity : String
  mode : String
  createdAt : Nat
  deriving DecidableEq

/-- The document store: the two collections plus a counter that supplies
fresh document ids and strictly increasing creation timestamps. -/
structure DB where
  users : List User
  expenses : List Expense
  nextStamp : Nat
  deriving DecidableEq

/-- `User.findById` / the auth middleware's lookup of the token's user id. -/
def DB.findUser (db : DB) (uid : Nat) : Option User :=
  db.users.find? (fun u => u.id == uid)

/-- The expenses owned by one account, in insertion order (the account's
ledger, before any sort). -/
def DB.ledger (db : DB) (uid : Nat) : List Expense :=
  db.expenses.filter (fun e => e.userId == uid)

/-- bcrypt.hash with a fresh salt, an external collaborator of the server;
modelled as an injective tagging function, only the fact that it is applied
(or not applied) being relevant to the claims. -/
def bcryptHash (s : String) : String := "bcrypt-hash:" ++ s

/-- The `userSchema.pre('save')` hook: re-hash the password only when the
password path is among the modified paths of this save. -/
def preSaveUser (u : User) (modifiedPaths : List String) : User :=
  if "password" ∈ modifiedPaths then { u with password := bcryptHash u.password }
  else u

/-- `document.save()` for a user document: run the pre-save hook, then write
the document back over the stored document with the same _id. -/
def DB.saveUser (db : DB) (u : User) (modifiedPaths : List String) : DB :=
  let u2 := preSaveUser u modifiedPaths
  { db with users := db.users.map (fun w => if w.id == u2.id then u2 else w) }

/-- The wire response of a handler: an error status with its message, or one
of the success shapes the routes produce (the session token of the auth
routes is issued by the external jwt collaborator and is omitted). -/
inductive Resp where
  | err (status : Nat) (msg : String)
  | okSignup (status : Nat) (msg : String) (id : Nat) (username email : String) (totalBudget : JVal)
  | okBudget (msg : String) (totalBudget : JVal)
  | okList (expenses : List Expense)
  | okExpense (status : Nat) (e : Expense)
  | okMsg (msg : String)
  deriving DecidableEq

/-! ## Sorting

MongoDB's `.sort({date: 1, createdAt: 1})` and the client's
`Array.prototype.sort` are stable sorts; for a total preorder comparator any
stable sort produces the same list, so both are modelled by a structural
insertion sort on a boolean comparator. -/

def insertBy (le : α → α → Bool) (a : α) : List α → List α
  | [] => [a]
  | b :: l => if le a b then a :: b :: l else b :: insertBy le a l

def sortBy (le : α → α → Bool) : List α → List α
  | [] => []
  | a :: l => insertBy le a (sortBy le l)

/-- Lexicographic byte comparison of strings (as lists of characters), the
order MongoDB uses on the string-typed `date` field. -/
def charListLe : List Char → List Char → Bool
  | [], _ => true
  | _ :: _, [] => false
  | a :: as, b :: bs => if a = b then charListLe as bs else decide (a < b)

def strLe (a b : String) : Bool := charListLe a.toList b.toList

/-- The sort key of `Expense.find(...).sort({date: 1, createdAt: 1})`:
date ascending, then creation timestamp ascending. -/
def expenseLe (a b : Expense) : Bool :=
  if a.date = b.date then decide (a.createdAt ≤ b.createdAt)
  else strLe a.date b.date

/-! ## The Express handlers -/

/-- POST /api/auth/signup. -/
def signup (db : DB) (username email password : JVal) : Resp × DB :=
  if username.falsy || email.falsy || password.falsy then
    (.err 400 "All fields are required.", db)
  else if jsLengthLt username 3 then
    (.err 400 "Username must be at least 3 characters.", db)
  else if jsLengthLt password 6 then
    (.err 400 "Password must be at least 6 characters.", db)
  else
    match db.users.find? (fun u => jvalEqStr email u.email || jvalEqStr username u.username) with
    | some existingUser =>
        if jvalEqStr email existingUser.email then
          (.err 400 "Email already registered.", db)
        else
          (.err 400 "Username already taken.", db)
    | none =>
        let u : User :=
          { id := db.nextStamp
            username := mongooseCastString username
            email := (mongooseCastString email).toLower
            password := mongooseCastString password
            totalBudget := .num 0
            createdAt := db.nextStamp }
        let u2 := preSaveUser u ["username", "email", "password", "totalBudget", "createdAt"]
        (.okSignup 201 "Account created successfully!" u2.id u2.username u2.email u2.totalBudget,
         { db with users := db.users ++ [u2], nextStamp := db.nextStamp + 1 })

/-- PUT /api/budget/set (behind the auth middleware, `u` is the caller's
stored user document). -/
def setBudget (db : DB) (u : User) (amount : JVal) : Resp × DB :=
  if amount == .undef || jsIsNaN amount || jsLtNum amount 0 then
    (.err 400 "Please provide a valid budget amount.", db)
  else
    let u2 := { u with totalBudget := mongooseCastNumber amount }
    (.okBudget "Budget updated." u2.totalBudget, db.saveUser u2 ["totalBudget"])

/-- PUT /api/budget/add. -/
def addToBudget (db : DB) (u : User) (amount : JVal) : Resp × DB :=
  if amount == .undef || jsIsNaN amount || jsLeNum amount 0 then
    (.err 400 "Please provide a valid amount to add.", db)
  else
    let u2 := { u with totalBudget := mongooseCastNumber (jsAdd u.totalBudget amount) }
    (.okBudget "Money added to budget." u2.totalBudget, db.saveUser u2 ["totalBudget"])

/-- GET /api/expenses: the caller's expenses sorted by date ascending then
creation timestamp ascending. -/
def listExpenses (db : DB) (uid : Nat) : List Expense :=
  sortBy expenseLe (db.ledger uid)

/-- `parseFloat(v)`: ToString then parse the longest numeric prefix; `none`
models NaN. For a number argument the round trip is exact, so that case is
taken directly. -/
def jsParseFloatVal : JVal → Option ℚ
  | .num q => some q
  | .nan => none
  | v => jsParseFloatStr v.toJsString

/-- POST /api/expenses. When the truthy guard passes, the handler builds the
document with `amount: parseFloat(amount)`. If that value is NaN the
required `Number` schema path makes `expense.save()` throw a mongoose
CastError, the catch answers 500 "Server error." and nothing is persisted;
otherwise the record is saved and returned with 201. -/
def addExpense (db : DB) (uid : Nat) (date item amount quantity mode : JVal) : Resp × DB :=
  if date.falsy || item.falsy || amount.falsy || quantity.falsy || mode.falsy then
    (.err 400 "All fields are required.", db)
  else
    match jsParseFloatVal amount with
    | none => (.err 500 "Server error.", db)
    | some x =>
        let e : Expense :=
          { id := db.nextStamp
            userId := uid
            date := mongooseCastString date
            item := mongooseCastString item
            amount := x
            quantity := mongooseCastString quantity
            mode := mongooseCastString mode
            createdAt := db.nextStamp }
        (.okExpense 201 e, { db with expenses := db.expenses ++ [e], nextStamp := db.nextStamp + 1 })

/-- DELETE /api/expenses/:id: `findOneAndDelete({_id, userId})` deletes the
matching document only when it is owned by the caller. -/
def removeExpense (db : DB) (uid eid : Nat) : Resp × DB :=
  match db.expenses.find? (fun e => e.id == eid && e.userId == uid) with
  | none => (.err 404 "Expense not found.", db)
  | some _ =>
      (.okMsg "Expense deleted.",
       { db with expenses := db.expenses.eraseP (fun e => e.id == eid && e.userId == uid) })

/-- First half of DELETE /api/expenses: `await Expense.deleteMany({userId})`.
The store state after this await completes is observable by interleaved
requests before the second half runs. -/
def clearStep1 (db : DB) (uid : Nat) : DB :=
  { db with expenses := db.expenses.filter (fun e => !(e.userId == uid)) }

/-- Second half of DELETE /api/expenses: `req.user.totalBudget = 0` followed
by `await req.user.save()`. -/
def clearStep2 (db : DB) (u : User) : DB :=
  db.saveUser { u with totalBudget := .num 0 } ["totalBudget"]

/-- DELETE /api/expenses, both halves run to completion. -/
def clearAll (db : DB) (u : User) : Resp × DB :=
  (.okMsg "All data cleared.", clearStep2 (clearStep1 db u.id) u)

/-! ## The client presentation layer (src/script.js) -/

/-- An expense as mirrored in the client's in-memory `expenses` array; the
fields `updateTable` reads. `amount` is a number (`parseFloat(exp.amount)`
in the rendering code is the identity on the numbers the server returns). -/
structure CExpense where
  date : String
  item : String
  amount : ℚ
  quantity : String
  mode : String
  deriving DecidableEq

/-- A rendered table row: the expense columns, the running balance shown in
the row, and whether the row is flagged with the `negative` class. -/
structure Row where
  date : String
  item : String
  amount : ℚ
  balance : ℚ
  negative : Bool
  deriving DecidableEq

/-- `new Date(s).getTime()` up to a strictly increasing rescaling, on the
ISO `YYYY-MM-DD` strings the application produces; `none` models an invalid
date (NaN). -/
def jsDateValue (s : String) : Option Nat :=
  match s.toList with
  | [y1, y2, y3, y4, h1, m1, m2, h2, d1, d2] =>
      if y1.isDigit && y2.isDigit && y3.isDigit && y4.isDigit && h1 = '-' &&
         m1.isDigit && m2.isDigit && h2 = '-' && d1.isDigit && d2.isDigit then
        some (digitsVal [y1, y2, y3, y4] * 10000 + digitsVal [m1, m2] * 100 + digitsVal [d1, d2])
      else none
  | _ => none

/-- The client's sort comparator `new Date(a.date) - new Date(b.date)`: when
either date is invalid the difference is NaN, which `Array.prototype.sort`
treats as 0, i.e. the pair may appear in either order. -/
def cDateLe (a b : CExpense) : Bool :=
  match jsDateValue a.date, jsDateValue b.date with
  | some x, some y => decide (x ≤ y)
  | _, _ => true

/-- The row-building loop of `updateTable`: walk the (already sorted) list,
subtract each amount from the running balance, flag the row when the balance
after the subtraction is negative. -/
def renderRows (balance : ℚ) : List CExpense → List Row
  | [] => []
  | e :: es =>
      let nb := balance - e.amount
      { date := e.date, item := e.item, amount := e.amount,
        balance := nb, negative := decide (nb < 0) } :: renderRows nb es

/-- `updateTable`: sort the in-memory expense list by date, then render the
rows with the running balance starting from the budget. -/
def updateTable (totalBudget : ℚ) (expenses : List CExpense) : List Row :=
  renderRows totalBudget (sortBy cDateLe expenses)

/-! ## Lemmas about the sorting model -/

theorem mem_insertBy {le : α → α → Bool} {a x : α} {l : List α} :
    x ∈ insertBy le a l ↔ x = a ∨ x ∈ l := by
  induction l with
  | nil => simp [insertBy]
  | cons b l ih =>
      rw [insertBy]
      by_cases h : le a b = true
      · rw [if_pos h]
        simp
      · rw [if_neg h]
        rw [List.mem_cons, ih, List.mem_cons]
        tauto

theorem insertBy_perm (le : α → α → Bool) (a : α) (l : List α) :
    (insertBy le a l).Perm (a :: l) := by
  induction l with
  | nil => simp [insertBy]
  | cons b l ih =>
      rw [insertBy]
      by_cases h : le a b = true
      · rw [if_pos h]
      · rw [if_neg h]
        exact (ih.cons b).trans (List.Perm.swap a b l)

theorem sortBy_perm (le : α → α → Bool) (l : List α) : (sortBy le l).Perm l := by
  induction l with
  | nil => simp [sortBy]
  | cons a l ih =>
      rw [sortBy]
      exact (insertBy_perm le a (sortBy le l)).trans (ih.cons a)

theorem mem_sortBy {le : α → α → Bool} {x : α} {l : List α} :
    x ∈ sortBy le l ↔ x ∈ l :=
  (sortBy_perm le l).mem_iff

theorem pairwise_insertBy {le : α → α → Bool} {P : α → Prop} {a : α} {l : List α}
    (htrans : ∀ x y z, P x → P y → P z → le x y = true → le y z = true → le x z = true)
    (htotal : ∀ x y, P x → P y → le x y = true ∨ le y x = true)
    (hPa : P a) (hPl : ∀ x ∈ l, P x)
    (hl : l.Pairwise (fun x y => le x y = true)) :
    (insertBy le a l).Pairwise (fun x y => le x y = true) := by
  induction l with
  | nil => simp [insertBy]
  | cons b l ih =>
      rcases List.pairwise_cons.mp hl with ⟨hb, hl'⟩
      have hPb : P b := hPl b (by simp)
      have hPl' : ∀ x ∈ l, P x := fun x hx => hPl x (by simp [hx])
      rw [insertBy]
      by_cases h : le a b = true
      · rw [if_pos h]
        refine List.pairwise_cons.mpr ⟨?_, hl⟩
        intro x hx
        rcases List.mem_cons.mp hx with rfl | hx
        · exact h
        · exact htrans a b x hPa hPb (hPl' x hx) h (hb x hx)
      · rw [if_neg h]
        refine List.pairwise_cons.mpr ⟨?_, ih hPl' hl'⟩
        intro x hx
        rcases mem_insertBy.mp hx with rfl | hx
        · rcases htotal x b hPa hPb with hba | hba
          · exact absurd hba h
          · exact hba
        · exact hb x hx

theorem pairwise_sortBy {le : α → α → Bool} {P : α → Prop} {l : List α}
    (htrans : ∀ x y z, P x → P y → P z → le x y = true → le y z = true → le x z = true)
    (htotal : ∀ x y, P x → P y → le x y = true ∨ le y x = true)
    (hP : ∀ x ∈ l, P x) :
    (sortBy le l).Pairwise (fun x y => le x y = true) := by
  induction l with
  | nil => simp [sortBy]
  | cons a l ih =>
      have hPl : ∀ x ∈ l, P x := fun x hx => hP x (by simp [hx])
      have hPs : ∀ x ∈ sortBy le l, P x := fun x hx => hPl x (mem_sortBy.mp hx)
      rw [sortBy]
      exact pairwise_insertBy htrans htotal (hP a (by simp)) hPs (ih hPl)

/-! Totality, transitivity and antisymmetry of the comparators. -/

theorem charListLe_total : ∀ as bs : List Char, charListLe as bs = true ∨ charListLe bs as = true := by
  intro as
  induction as with
  | nil => intro bs; left; cases bs <;> rfl
  | cons a as ih =>
      intro bs
      cases bs with
      | nil => right; rfl
      | cons b bs =>
          by_cases hab : a = b
          · subst hab
            rw [charListLe, if_pos rfl, charListLe, if_pos rfl]
            exact ih bs
          · have hba : b ≠ a := fun hc => hab hc.symm
            rcases lt_trichotomy a b with h | h | h
            · left
              rw [charListLe, if_neg hab]
              exact decide_eq_true h
            · exact absurd h hab
            · right
              rw [charListLe, if_neg hba]
              exact decide_eq_true h

theorem charListLe_trans : ∀ as bs cs : List Char,
    charListLe as bs = true → charListLe bs cs = true → charListLe as cs = true := by
  intro as
  induction as with
  | nil => intro bs cs _ _; cases cs <;> rfl
  | cons a as ih =>
      intro bs cs h1 h2
      cases bs with
      | nil => rw [charListLe] at h1; exact absurd h1 (by simp)
      | cons b bs =>
          cases cs with
          | nil => rw [charListLe] at h2; exact absurd h2 (by simp)
          | cons c cs =>
              by_cases hab : a = b <;> by_cases hbc : b = c
              · subst hab; subst hbc
                rw [charListLe, if_pos rfl] at h1 h2 ⊢
                exact ih bs cs h1 h2
              · subst hab
                rw [charListLe, if_pos rfl] at h1
                rw [charListLe, if_neg hbc] at h2 ⊢
                exact h2
              · subst hbc
                rw [charListLe, if_neg hab] at h1
                rw [charListLe, if_pos rfl] at h2
                rw [charListLe, if_neg hab]
                exact h1
              · rw [charListLe, if_neg hab] at h1
                rw [charListLe, if_neg hbc] at h2
                have h1' : a < b := of_decide_eq_true h1
                have h2' : b < c := of_decide_eq_true h2
                have hac : a < c := lt_trans h1' h2'
                rw [charListLe, if_neg (ne_of_lt hac)]
                exact decide_eq_true hac

theorem charListLe_antisymm : ∀ as bs : List Char,
    charListLe as bs = true → charListLe bs as = true → as = bs := by
  intro as
  induction as with
  | nil =>
      intro bs h1 h2
      cases bs with
      | nil => rfl
      | cons b bs => rw [charListLe] at h2; exact absurd h2 (by simp)
  | cons a as ih =>
      intro bs h1 h2
      cases bs with
      | nil => rw [charListLe] at h1; exact absurd h1 (by simp)
      | cons b bs =>
          by_cases hab : a = b
          · subst hab
            rw [charListLe, if_pos rfl] at h1 h2
            exact congrArg (a :: ·) (ih bs h1 h2)
          · have hba : b ≠ a := fun hc => hab hc.symm
            rw [charListLe, if_neg hab] at h1
            rw [charListLe, if_neg hba] at h2
            exact absurd (lt_trans (of_decide_eq_true h1) (of_decide_eq_true h2)) (lt_irrefl a)

theorem strLe_total (a b : String) : strLe a b = true ∨ strLe b a = true :=
  charListLe_total a.toList b.toList

theorem strLe_trans {a b c : String} (h1 : strLe a b = true) (h2 : strLe b c = true) :
    strLe a c = true :=
  charListLe_trans a.toList b.toList c.toList h1 h2

theorem strLe_antisymm {a b : String} (h1 : strLe a b = true) (h2 : strLe b a = true) :
    a = b := by
  have h := charListLe_antisymm a.toList b.toList h1 h2
  cases a with
  | mk da =>
      cases b with
      | mk db =>
          have : da = db := by simpa [String.toList] using h
          rw [this]

theorem expenseLe_total (a b : Expense) : expenseLe a b = true ∨ expenseLe b a = true := by
  by_cases h : a.date = b.date
  · have h2 : b.date = a.date := h.symm
    rw [expenseLe, if_pos h, expenseLe, if_pos h2]
    rcases Nat.le_total a.createdAt b.createdAt with hle | hle
    · exact Or.inl (decide_eq_true hle)
    · exact Or.inr (decide_eq_true hle)
  · have h2 : b.date ≠ a.date := fun hc => h hc.symm
    rw [expenseLe, if_neg h, expenseLe, if_neg h2]
    exact strLe_total a.date b.date

theorem strLe_refl (a : String) : strLe a a = true := by
  rw [strLe]
  induction a.toList with
  | nil => rfl
  | cons c cs ih => rw [charListLe, if_pos rfl]; exact ih

theorem expenseLe_trans (a b c : Expense)
    (h1 : expenseLe a b = true) (h2 : expenseLe b c = true) : expenseLe a c = true := by
  rw [expenseLe] at h1 h2 ⊢
  by_cases hab : a.date = b.date <;> by_cases hbc : b.date = c.date
  · have hac : a.date = c.date := hab.trans hbc
    rw [if_pos hab] at h1
    rw [if_pos hbc] at h2
    rw [if_pos hac]
    exact decide_eq_true (Nat.le_trans (of_decide_eq_true h1) (of_decide_eq_true h2))
  · have hac : a.date ≠ c.date := fun hc => hbc (hab ▸ hc)
    rw [if_neg hbc] at h2
    rw [if_neg hac, hab]
    exact h2
  · have hac : a.date ≠ c.date := fun hc => hab (hc.trans hbc.symm)
    rw [if_neg hab] at h1
    rw [if_neg hac, ← hbc]
    exact h1
  · rw [if_neg hab] at h1
    rw [if_neg hbc] at h2
    by_cases hac : a.date = c.date
    · rw [hac] at h1
      exact absurd (strLe_antisymm h2 h1) hbc
    · rw [if_neg hac]
      exact strLe_trans h1 h2

/-! ## Lemmas about saving user documents -/

theorem preSaveUser_id (u : User) (paths : List String) :
    (preSaveUser u paths).id = u.id := by
  rw [preSaveUser]
  split <;> rfl

theorem preSaveUser_of_not_password {u : User} {paths : List String}
    (h : "password" ∉ paths) : preSaveUser u paths = u := by
  rw [preSaveUser, if_neg h]

theorem find?_id_map_replace (l : List User) (v : User) (uid : Nat) :
    List.find? (fun w => w.id == uid) (l.map (fun w => if w.id == v.id then v else w)) =
      (List.find? (fun w => w.id == uid) l).map (fun w => if w.id == v.id then v else w) := by
  induction l with
  | nil => rfl
  | cons w l ih =>
      have hwid : (if (w.id == v.id) = true then v else w).id = w.id := by
        split
        · next hc =>
            simp only [beq_iff_eq] at hc
            exact hc.symm
        · rfl
      simp only [List.map_cons, List.find?_cons, hwid]
      by_cases h : (w.id == uid) = true
      · rw [h]
        rfl
      · rw [Bool.not_eq_true] at h
        rw [h]
        exact ih

/-- After a save, looking up any user id finds what the lookup found before
the save, with the saved (hook-processed) document substituted when the ids
match. -/
theorem findUser_saveUser (db : DB) (u : User) (paths : List String) (uid : Nat) :
    (db.saveUser u paths).findUser uid =
      (db.findUser uid).map
        (fun w => if w.id == (preSaveUser u paths).id then preSaveUser u paths else w) := by
  rw [DB.saveUser, DB.findUser, DB.findUser]
  exact find?_id_map_replace db.users (preSaveUser u paths) uid

theorem saveUser_expenses (db : DB) (u : User) (paths : List String) :
    (db.saveUser u paths).expenses = db.expenses := rfl

theorem saveUser_nextStamp (db : DB) (u : User) (paths : List String) :
    (db.saveUser u paths).nextStamp = db.nextStamp := rfl

/-- Whether a JavaScript value is of number type (NaN is a number). -/
def JVal.isNumber : JVal → Bool
  | .num _ => true
  | .nan => true
  | _ => false

/-! ## Concrete fixtures used by the closed theorems and witnesses -/

def aliceU : User :=
  { id := 1, username := "alice", email := "a@x.com",
    password := "bcrypt-hash:secret1", totalBudget := .num 1000, createdAt := 0 }

def bobU : User :=
  { id := 2, username := "bob", email := "b@x.com",
    password := "bcrypt-hash:secret2", totalBudget := .num 500, createdAt := 0 }

def expAlice : Expense :=
  { id := 10, userId := 1, date := "2024-01-05", item := "Tea",
    amount := 50, quantity := "1", mode := "Cash", createdAt := 10 }

def expBob : Expense :=
  { id := 11, userId := 2, date := "2024-01-06", item := "Rice",
    amount := 80, quantity := "2", mode := "Card", createdAt := 11 }

def dbTwo : DB := { users := [aliceU, bobU], expenses := [expAlice, expBob], nextStamp := 12 }

/-! ## C1 -/

/-- C1. The spec requires `clear` to delete the account's expenses and zero
its budget as one atomic unit, no intermediate state being observable. The
handler instead runs `Expense.deleteMany` to completion (an await, at which
the event loop serves other requests) and only then zeroes and saves the
budget, so the state after the first step is observable: starting from an
account with budget 1000 and one expense, after step one the account's
ledger is already empty while its budget is still 1000 ≠ 0; only after step
two are both effects in place. -/
theorem clear_not_atomic :
    ((clearStep1 dbTwo 1).ledger 1 = []
      ∧ ((clearStep1 dbTwo 1).findUser 1).map (fun w => w.totalBudget) = some (.num 1000)
      ∧ JVal.num 1000 ≠ JVal.num 0)
    ∧ ((clearAll dbTwo aliceU).2.ledger 1 = []
      ∧ ((clearAll dbTwo aliceU).2.findUser 1).map (fun w => w.totalBudget) = some (.num 0)) := by
  decide

/-! ## C10 -/

/-- C10. The setBudget guard treats only `undefined` as missing: `undefined`
is rejected with the validation error, while `null` (isNaN(null) is false
and null < 0 is false) and the numeric string "5" pass the guard and the
handler writes the value as the account's budget total — null is stored as
null, "5" is stored as the number 5 after the schema's number cast — and
responds 200. -/
theorem setBudget_guard_gaps :
    (setBudget dbTwo aliceU .undef).1 = .err 400 "Please provide a valid budget amount."
    ∧ (setBudget dbTwo aliceU .null).1 = .okBudget "Budget updated." .null
    ∧ ((setBudget dbTwo aliceU .null).2.findUser 1).map (fun w => w.totalBudget) = some JVal.null
    ∧ (setBudget dbTwo aliceU (.str "5")).1 = .okBudget "Budget updated." (.num 5)
    ∧ ((setBudget dbTwo aliceU (.str "5")).2.findUser 1).map (fun w => w.totalBudget)
        = some (.num 5) := by
  decide

/-! ## Counterexamples -/

/-- C2 counterexample. An add-expense request in which all five fields are
present — amount is the number 0 — is rejected with the validation error,
because the handler's guard tests truthiness, not presence, and 0 is falsy.
So "fails iff at least one field is missing" is false at this input. -/
theorem addExpense_zero_amount_rejected :
    JVal.num 0 ≠ JVal.undef
    ∧ addExpense dbTwo 1 (.str "2024-01-05") (.str "Tea") (.num 0) (.str "1") (.str "Cash")
        = (.err 400 "All fields are required.", dbTwo) := by
  decide

/-- C4 counterexample. The string "5" is not a number, so the claim requires
setBudget to fail with the validation error; instead isNaN("5") is false and
"5" < 0 is false, the guard passes, the handler succeeds with 200 and the
budget is written (stored as the number 5 after the schema cast). -/
theorem setBudget_accepts_nonnumber :
    JVal.isNumber (.str "5") = false
    ∧ (setBudget dbTwo aliceU (.str "5")).1 = .okBudget "Budget updated." (.num 5)
    ∧ ((setBudget dbTwo aliceU (.str "5")).2.findUser 1).map (fun w => w.totalBudget)
        = some (.num 5) := by
  decide

/-- C5 counterexample. The string "5" is not a number, so the claim requires
addToBudget to fail with the validation error; instead the guard passes
(isNaN("5") is false, "5" <= 0 is false) and the handler succeeds. Worse,
`totalBudget += "5"` on the stored budget 1000 is JavaScript string
concatenation, "10005", which the schema cast stores as the number 10005 —
also refuting "new total equals old total plus amount". -/
theorem addToBudget_accepts_nonnumber :
    JVal.isNumber (.str "5") = false
    ∧ (addToBudget dbTwo aliceU (.str "5")).1 = .okBudget "Money added to budget." (.num 10005)
    ∧ ((addToBudget dbTwo aliceU (.str "5")).2.findUser 1).map (fun w => w.totalBudget)
        = some (.num 10005) := by
  decide

def conflictA : User :=
  { id := 1, username := "alice", email := "b@x.com",
    password := "bcrypt-hash:pw111111", totalBudget := .num 0, createdAt := 0 }

def conflictB : User :=
  { id := 2, username := "bob", email := "a@x.com",
    password := "bcrypt-hash:pw222222", totalBudget := .num 0, createdAt := 0 }

def dbConflict : DB := { users := [conflictA, conflictB], expenses := [], nextStamp := 3 }

/-- C6 counterexample. Requested name "alice" is taken (by the first stored
account) and requested email "a@x.com" is also taken (by the second stored
account), so both uniqueness checks could fire; the handler's single
`findOne({$or})` returns the first matching account, whose email does not
equal the requested one, so the reported conflict is "Username already
taken." — not the email conflict the claim promises. -/
theorem signup_reports_username_not_email :
    (∃ u ∈ dbConflict.users, u.email = "a@x.com")
    ∧ (∃ u ∈ dbConflict.users, u.username = "alice")
    ∧ (signup dbConflict (.str "alice") (.str "a@x.com") (.str "secret1")).1
        = .err 400 "Username already taken." := by
  decide

/-! ## C2 (amended) -/

/-- C2 amended. The add-expense operation fails with the validation error —
leaving the store unchanged — if and only if at least one of the five fields
is falsy (absent, null, 0, NaN, empty string or false), not merely when one
is missing. When all five are truthy, amount is coerced with parseFloat: if
the coercion yields NaN the required Number schema path makes the save throw
a CastError, so the request fails with the 500 server error and nothing is
persisted; otherwise the record is persisted with the numeric amount, a
generated id and creation timestamp, and returned with status 201. -/
theorem addExpense_spec (db : DB) (uid : Nat) (d i a q m : JVal) :
    ((addExpense db uid d i a q m
        = (.err 400 "All fields are required.", db))
      ↔ (d.falsy || i.falsy || a.falsy || q.falsy || m.falsy) = true)
    ∧ ((d.falsy || i.falsy || a.falsy || q.falsy || m.falsy) = false →
        (jsParseFloatVal a = none →
          addExpense db uid d i a q m = (.err 500 "Server error.", db))
        ∧ (∀ x : ℚ, jsParseFloatVal a = some x →
            addExpense db uid d i a q m
              = (.okExpense 201
                  { id := db.nextStamp, userId := uid,
                    date := mongooseCastString d, item := mongooseCastString i,
                    amount := x,
                    quantity := mongooseCastString q, mode := mongooseCastString m,
                    createdAt := db.nextStamp },
                 { db with
                    expenses := db.expenses ++
                      [{ id := db.nextStamp, userId := uid,
                         date := mongooseCastString d, item := mongooseCastString i,
                         amount := x,
                         quantity := mongooseCastString q, mode := mongooseCastString m,
                         createdAt := db.nextStamp }],
                    nextStamp := db.nextStamp + 1 }))) := by
  constructor
  · constructor
    · intro h
      by_contra hg
      rw [Bool.not_eq_true] at hg
      rw [addExpense, hg] at h
      simp only [Bool.false_eq_true, if_false] at h
      split at h
      · simp at h
      · simp at h
    · intro hg
      rw [addExpense, hg]
      rfl
  · intro hg
    constructor
    · intro hn
      rw [addExpense, hg, hn]
      rfl
    · intro x hx
      rw [addExpense, hg, hx]
      rfl

/-- C2 witness: a concrete all-truthy request with a numeric amount is
persisted and returned, and a concrete all-truthy request whose amount
parses to NaN fails with the 500 server error, persisting nothing. -/
theorem addExpense_spec_witness :
    ((JVal.str "2024-01-05").falsy || (JVal.str "Tea").falsy || (JVal.num 50).falsy ||
      (JVal.str "1").falsy || (JVal.str "Cash").falsy) = false
    ∧ jsParseFloatVal (.num 50) = some 50
    ∧ addExpense dbTwo 1 (.str "2024-01-05") (.str "Tea") (.num 50) (.str "1") (.str "Cash")
        = (.okExpense 201
            { id := dbTwo.nextStamp, userId := 1,
              date := mongooseCastString (.str "2024-01-05"), item := mongooseCastString (.str "Tea"),
              amount := 50,
              quantity := mongooseCastString (.str "1"), mode := mongooseCastString (.str "Cash"),
              createdAt := dbTwo.nextStamp },
           { dbTwo with
              expenses := dbTwo.expenses ++
                [{ id := dbTwo.nextStamp, userId := 1,
                   date := mongooseCastString (.str "2024-01-05"), item := mongooseCastString (.str "Tea"),
                   amount := 50,
                   quantity := mongooseCastString (.str "1"), mode := mongooseCastString (.str "Cash"),
                   createdAt := dbTwo.nextStamp }],
              nextStamp := dbTwo.nextStamp + 1 })
    ∧ jsParseFloatVal (.str "abc") = none
    ∧ addExpense dbTwo 1 (.str "2024-01-05") (.str "Tea") (.str "abc") (.str "1") (.str "Cash")
        = (.err 500 "Server error.", dbTwo) :=
  ⟨by decide, by decide,
   ((addExpense_spec dbTwo 1 (.str "2024-01-05") (.str "Tea") (.num 50) (.str "1") (.str "Cash")).2
     (by decide)).2 50 (by decide),
   by decide,
   ((addExpense_spec dbTwo 1 (.str "2024-01-05") (.str "Tea") (.str "abc") (.str "1") (.str "Cash")).2
     (by decide)).1 (by decide)⟩

/-! ## C3 -/

theorem expenseLe_implies (a b : Expense) (h : expenseLe a b = true) :
    strLe a.date b.date = true ∧ (a.date = b.date → a.createdAt ≤ b.createdAt) := by
  rw [expenseLe] at h
  by_cases hd : a.date = b.date
  · rw [if_pos hd] at h
    exact ⟨hd ▸ strLe_refl a.date, fun _ => of_decide_eq_true h⟩
  · rw [if_neg hd] at h
    exact ⟨h, fun hc => absurd hc hd⟩

def dbScen0 : DB := { users := [aliceU], expenses := [], nextStamp := 20 }

def dbScen1 : DB :=
  (addExpense dbScen0 1 (.str "2024-01-10") (.str "Tea") (.num 50) (.str "1") (.str "Cash")).2

def dbScen2 : DB :=
  (addExpense dbScen1 1 (.str "2024-01-02") (.str "Rice") (.num 20) (.str "1") (.str "Cash")).2

/-- C3. Listing returns exactly the caller's expenses, ordered by date
ascending (lexicographic order on the stored date strings, which on the
application's ISO dates is chronological order) with ties on equal dates
broken by creation timestamp ascending; and in the concrete scenario where
an expense dated 2024-01-10 is added and then one dated 2024-01-02, the list
returns the 2024-01-02 record first. -/
theorem listExpenses_spec :
    (∀ (db : DB) (uid : Nat),
      (∀ e, e ∈ listExpenses db uid ↔ (e ∈ db.expenses ∧ e.userId = uid))
      ∧ (listExpenses db uid).Pairwise
          (fun a b => strLe a.date b.date = true ∧ (a.date = b.date → a.createdAt ≤ b.createdAt)))
    ∧ (listExpenses dbScen2 1).map (fun e => e.date) = ["2024-01-02", "2024-01-10"] := by
  constructor
  · intro db uid
    constructor
    · intro e
      rw [listExpenses, mem_sortBy, DB.ledger, List.mem_filter]
      simp
    · have hp := @pairwise_sortBy Expense expenseLe (fun _ => True) (db.ledger uid)
        (fun x y z _ _ _ hxy hyz => expenseLe_trans x y z hxy hyz)
        (fun x y _ _ => expenseLe_total x y)
        (fun _ _ => trivial)
      exact hp.imp (fun h => expenseLe_implies _ _ h)
  · decide

/-- C3 witness: the general part applied at a concrete store. -/
theorem listExpenses_spec_witness :
    (∀ e, e ∈ listExpenses dbTwo 1 ↔ (e ∈ dbTwo.expenses ∧ e.userId = 1))
    ∧ (listExpenses dbTwo 1).Pairwise
        (fun a b => strLe a.date b.date = true ∧ (a.date = b.date → a.createdAt ≤ b.createdAt)) :=
  listExpenses_spec.1 dbTwo 1

/-! ## C4, C5 (amended) -/

theorem findUser_saveBudget (db : DB) (u : User) (X : JVal)
    (hu : db.findUser u.id = some u) :
    (db.saveUser { u with totalBudget := X } ["totalBudget"]).findUser u.id
      = some { u with totalBudget := X } := by
  have hps : preSaveUser { u with totalBudget := X } ["totalBudget"]
      = { u with totalBudget := X } :=
    preSaveUser_of_not_password (by decide)
  rw [findUser_saveUser, hu]
  simp [hps]

/-- The Bool guard of the budget-set route, as a proposition. -/
theorem setBudget_guard_iff (amount : JVal) :
    (amount == JVal.undef || jsIsNaN amount || jsLtNum amount 0) = true
      ↔ (amount = .undef ∨ amount.toNumber = none ∨ jsLtNum amount 0 = true) := by
  simp [jsIsNaN, Option.isNone_iff_eq_none]
  tauto

/-- C4 amended. setBudget fails with the validation error — leaving the
store unchanged — exactly when amount is undefined, coerces to NaN under
ToNumber, or compares below 0 under the JavaScript comparison (so null and
numeric strings, though not numbers, are accepted); whenever the guard
passes the stored budget is replaced by the request value (subject to the
schema's number cast) and the new total is returned; in particular every
numeric amount q ≥ 0 exactly replaces the stored total. -/
theorem setBudget_spec (db : DB) (u : User) (amount : JVal)
    (hu : db.findUser u.id = some u) :
    ((setBudget db u amount = (.err 400 "Please provide a valid budget amount.", db))
      ↔ (amount = .undef ∨ amount.toNumber = none ∨ jsLtNum amount 0 = true))
    ∧ (¬(amount = .undef ∨ amount.toNumber = none ∨ jsLtNum amount 0 = true) →
        (setBudget db u amount).1 = .okBudget "Budget updated." (mongooseCastNumber amount)
        ∧ (setBudget db u amount).2.findUser u.id
            = some { u with totalBudget := mongooseCastNumber amount })
    ∧ (∀ q : ℚ, 0 ≤ q → amount = .num q →
        (setBudget db u amount).1 = .okBudget "Budget updated." (.num q)
        ∧ (setBudget db u amount).2.findUser u.id = some { u with totalBudget := .num q }) := by
  by_cases hc : (amount == JVal.undef || jsIsNaN amount || jsLtNum amount 0) = true
  · have hpr := (setBudget_guard_iff amount).mp hc
    have he : setBudget db u amount = (.err 400 "Please provide a valid budget amount.", db) := by
      rw [setBudget, if_pos hc]
    refine ⟨⟨fun _ => hpr, fun _ => he⟩, fun hn => absurd hpr hn, ?_⟩
    intro q hq hqe
    subst hqe
    rcases hpr with h | h | h
    · exact absurd h (by simp)
    · exact absurd h (by simp [JVal.toNumber])
    · rw [jsLtNum] at h
      simp only [JVal.toNumber, decide_eq_true_eq] at h
      exact absurd h (not_lt.mpr hq)
  · have hok : setBudget db u amount
        = (.okBudget "Budget updated." (mongooseCastNumber amount),
           db.saveUser { u with totalBudget := mongooseCastNumber amount } ["totalBudget"]) := by
      rw [setBudget, if_neg hc]
    have hfind := findUser_saveBudget db u (mongooseCastNumber amount) hu
    refine ⟨⟨fun he => ?_, fun hpr => absurd ((setBudget_guard_iff amount).mpr hpr) hc⟩,
            fun _ => ⟨by rw [hok], by rw [hok]; exact hfind⟩, ?_⟩
    · rw [hok] at he
      have := congrArg Prod.fst he
      simp at this
    · intro q hq hqe
      subst hqe
      have hm : mongooseCastNumber (.num q) = .num q := rfl
      constructor
      · rw [hok, hm]
      · rw [hok, hm]
        exact hm ▸ hfind

/-- C4 witness: setting a concrete nonnegative numeric budget replaces the
stored total. -/
theorem setBudget_spec_witness :
    dbTwo.findUser aliceU.id = some aliceU
    ∧ (0 : ℚ) ≤ 200
    ∧ (setBudget dbTwo aliceU (.num 200)).1 = .okBudget "Budget updated." (.num 200)
    ∧ (setBudget dbTwo aliceU (.num 200)).2.findUser aliceU.id
        = some { aliceU with totalBudget := .num 200 } :=
  ⟨by decide, by decide,
   ((setBudget_spec dbTwo aliceU (.num 200) (by decide)).2.2 200 (by decide) rfl).1,
   ((setBudget_spec dbTwo aliceU (.num 200) (by decide)).2.2 200 (by decide) rfl).2⟩

/-- The Bool guard of the budget-add route, as a proposition. -/
theorem addToBudget_guard_iff (amount : JVal) :
    (amount == JVal.undef || jsIsNaN amount || jsLeNum amount 0) = true
      ↔ (amount = .undef ∨ amount.toNumber = none ∨ jsLeNum amount 0 = true) := by
  simp [jsIsNaN, Option.isNone_iff_eq_none]
  tauto

/-- C5 amended. addToBudget fails with the validation error — leaving the
store unchanged — exactly when amount is undefined, coerces to NaN, or
coerces to a value ≤ 0 (so positive numeric strings, though not numbers,
are accepted; on them `+=` concatenates before the schema cast, as the
counterexample shows); for every numeric amount q > 0 against a numeric
stored total b, the new stored total is exactly b + q and is returned. -/
theorem addToBudget_spec (db : DB) (u : User) (amount : JVal)
    (hu : db.findUser u.id = some u) :
    ((addToBudget db u amount = (.err 400 "Please provide a valid amount to add.", db))
      ↔ (amount = .undef ∨ amount.toNumber = none ∨ jsLeNum amount 0 = true))
    ∧ (∀ q b : ℚ, amount = .num q → 0 < q → u.totalBudget = .num b →
        (addToBudget db u amount).1 = .okBudget "Money added to budget." (.num (b + q))
        ∧ (addToBudget db u amount).2.findUser u.id
            = some { u with totalBudget := .num (b + q) }) := by
  by_cases hc : (amount == JVal.undef || jsIsNaN amount || jsLeNum amount 0) = true
  · have hpr := (addToBudget_guard_iff amount).mp hc
    have he : addToBudget db u amount = (.err 400 "Please provide a valid amount to add.", db) := by
      rw [addToBudget, if_pos hc]
    refine ⟨⟨fun _ => hpr, fun _ => he⟩, ?_⟩
    intro q b hqe hq hb
    subst hqe
    rcases hpr with h | h | h
    · exact absurd h (by simp)
    · exact absurd h (by simp [JVal.toNumber])
    · rw [jsLeNum] at h
      simp only [JVal.toNumber, decide_eq_true_eq] at h
      exact absurd h (not_le.mpr hq)
  · have hok : addToBudget db u amount
        = (.okBudget "Money added to budget." (mongooseCastNumber (jsAdd u.totalBudget amount)),
           db.saveUser { u with totalBudget := mongooseCastNumber (jsAdd u.totalBudget amount) }
             ["totalBudget"]) := by
      rw [addToBudget, if_neg hc]
    have hfind := findUser_saveBudget db u (mongooseCastNumber (jsAdd u.totalBudget amount)) hu
    refine ⟨⟨fun he => ?_, fun hpr => absurd ((addToBudget_guard_iff amount).mpr hpr) hc⟩, ?_⟩
    · rw [hok] at he
      have := congrArg Prod.fst he
      simp at this
    · intro q b hqe hq hb
      subst hqe
      rw [hb] at hok
      have hadd : jsAdd (.num b) (.num q) = .num (b + q) := rfl
      rw [hadd] at hok
      have hm : mongooseCastNumber (.num (b + q)) = .num (b + q) := rfl
      rw [hm] at hok
      constructor
      · rw [hok]
      · rw [hok]
        rw [hb, hadd, hm] at hfind
        exact hfind

/-- C5 witness: adding a concrete positive numeric amount to a numeric
stored total yields exactly their sum. -/
theorem addToBudget_spec_witness :
    dbTwo.findUser aliceU.id = some aliceU
    ∧ (0 : ℚ) < 50
    ∧ aliceU.totalBudget = .num 1000
    ∧ (addToBudget dbTwo aliceU (.num 50)).1 = .okBudget "Money added to budget." (.num (1000 + 50))
    ∧ (addToBudget dbTwo aliceU (.num 50)).2.findUser aliceU.id
        = some { aliceU with totalBudget := .num (1000 + 50) } :=
  ⟨by decide, by decide, rfl,
   ((addToBudget_spec dbTwo aliceU (.num 50) (by decide)).2 50 1000 rfl (by decide) rfl).1,
   ((addToBudget_spec dbTwo aliceU (.num 50) (by decide)).2 50 1000 rfl (by decide) rfl).2⟩

/-! ## C6 (amended) -/

/-- C6 amended. For a request that passes field validation and whose name or
email is already taken, signup fails with a conflict error and never
overwrites anything in the store. Which conflict is reported is decided by
the first stored account matching either field: its email is compared first,
so when one account matches both the email conflict is reported; when the
name and the email are held by different accounts the reported conflict is
whichever check the earliest matching account satisfies (which may be the
name conflict even though the email is also taken). -/
theorem signup_conflict_spec (db : DB) (username email password : JVal)
    (h1 : username.falsy = false) (h2 : email.falsy = false) (h3 : password.falsy = false)
    (h4 : jsLengthLt username 3 = false) (h5 : jsLengthLt password 6 = false)
    (ht : ∃ u ∈ db.users, jvalEqStr email u.email = true ∨ jvalEqStr username u.username = true) :
    ((signup db username email password).1 = .err 400 "Email already registered."
      ∨ (signup db username email password).1 = .err 400 "Username already taken.")
    ∧ (signup db username email password).2 = db
    ∧ (∀ u0, db.users.find? (fun u => jvalEqStr email u.email || jvalEqStr username u.username)
          = some u0 →
        (signup db username email password).1
          = (if jvalEqStr email u0.email = true then Resp.err 400 "Email already registered."
             else Resp.err 400 "Username already taken.")) := by
  have hsome : (db.users.find?
      (fun u => jvalEqStr email u.email || jvalEqStr username u.username)).isSome = true := by
    rw [List.find?_isSome]
    rcases ht with ⟨u, hu, hor⟩
    exact ⟨u, hu, by rw [Bool.or_eq_true]; exact hor⟩
  rcases Option.isSome_iff_exists.mp hsome with ⟨u0, hu0⟩
  have hguard1 : (username.falsy || email.falsy || password.falsy) = false := by
    rw [h1, h2, h3]
    rfl
  have hstep : signup db username email password
      = (if jvalEqStr email u0.email = true then (Resp.err 400 "Email already registered.", db)
         else (Resp.err 400 "Username already taken.", db)) := by
    rw [signup, hguard1]
    simp only [Bool.false_eq_true, if_false, h4, h5, hu0]
  refine ⟨?_, ?_, ?_⟩
  · rw [hstep]
    split
    · exact Or.inl rfl
    · exact Or.inr rfl
  · rw [hstep]
    split
    · rfl
    · rfl
  · intro u1 hu1
    rw [hu1] at hu0
    cases hu0
    rw [hstep]
    split
    · rfl
    · rfl

/-- C6 witness: with both the name and the email taken in the concrete
conflict store, signup fails with a conflict and changes nothing. -/
theorem signup_conflict_spec_witness :
    (∃ u ∈ dbConflict.users,
        jvalEqStr (.str "a@x.com") u.email = true ∨ jvalEqStr (.str "alice") u.username = true)
    ∧ ((signup dbConflict (.str "alice") (.str "a@x.com") (.str "secret1")).1
          = .err 400 "Email already registered."
        ∨ (signup dbConflict (.str "alice") (.str "a@x.com") (.str "secret1")).1
          = .err 400 "Username already taken.")
    ∧ (signup dbConflict (.str "alice") (.str "a@x.com") (.str "secret1")).2 = dbConflict :=
  ⟨by decide,
   (signup_conflict_spec dbConflict (.str "alice") (.str "a@x.com") (.str "secret1")
      (by decide) (by decide) (by decide) (by decide) (by decide) (by decide)).1,
   (signup_conflict_spec dbConflict (.str "alice") (.str "a@x.com") (.str "secret1")
      (by decide) (by decide) (by decide) (by decide) (by decide) (by decide)).2.1⟩

/-! ## C7 -/

/-- C7. Calling remove with account A's identity and an expense id held by a
different account B fails with the not-found error and leaves the whole
store — in particular both A's and B's ledgers — unchanged; and for any
caller, remove succeeds (deleting a record) exactly when some stored expense
with that id is owned by the caller. -/
theorem removeExpense_cross_account (db : DB) (A B eid : Nat) (e : Expense)
    (he : e ∈ db.expenses) (hid : e.id = eid) (hB : e.userId = B) (hAB : A ≠ B)
    (hOwn : ∀ e2 ∈ db.expenses, e2.id = eid → e2.userId = B) :
    removeExpense db A eid = (.err 404 "Expense not found.", db)
    ∧ (removeExpense db A eid).2.ledger A = db.ledger A
    ∧ (removeExpense db A eid).2.ledger B = db.ledger B
    ∧ (∀ uid, ((removeExpense db uid eid).1 = .okMsg "Expense deleted."
          ↔ ∃ e2 ∈ db.expenses, e2.id = eid ∧ e2.userId = uid)) := by
  have hnone : db.expenses.find? (fun e2 => e2.id == eid && e2.userId == A) = none := by
    rw [List.find?_eq_none]
    intro x hx hpx
    rw [Bool.and_eq_true, beq_iff_eq, beq_iff_eq] at hpx
    exact hAB (hpx.2.symm.trans (hOwn x hx hpx.1))
  have herr : removeExpense db A eid = (.err 404 "Expense not found.", db) := by
    rw [removeExpense, hnone]
  refine ⟨herr, by rw [herr], by rw [herr], ?_⟩
  intro uid
  rw [removeExpense]
  cases hfind : db.expenses.find? (fun e2 => e2.id == eid && e2.userId == uid) with
  | none =>
      simp only []
      constructor
      · intro h
        exact absurd h (by simp)
      · intro ⟨e2, he2, hp⟩
        rw [List.find?_eq_none] at hfind
        exact absurd (by rw [Bool.and_eq_true, beq_iff_eq, beq_iff_eq]; exact hp)
          (hfind e2 he2)
  | some e2 =>
      simp only []
      constructor
      · intro _
        have hmem := List.mem_of_find?_eq_some hfind
        have hp := List.find?_some hfind
        rw [Bool.and_eq_true, beq_iff_eq, beq_iff_eq] at hp
        exact ⟨e2, hmem, hp⟩
      · intro _
        trivial

/-- C7 witness: in the concrete two-account store, removing Bob's expense
with Alice's identity fails and changes neither ledger. -/
theorem removeExpense_cross_account_witness :
    (expBob ∈ dbTwo.expenses ∧ expBob.id = 11 ∧ expBob.userId = 2 ∧ (1 : Nat) ≠ 2)
    ∧ removeExpense dbTwo 1 11 = (.err 404 "Expense not found.", dbTwo)
    ∧ (removeExpense dbTwo 1 11).2.ledger 1 = dbTwo.ledger 1
    ∧ (removeExpense dbTwo 1 11).2.ledger 2 = dbTwo.ledger 2 :=
  ⟨⟨by decide, by decide, by decide, by decide⟩,
   (removeExpense_cross_account dbTwo 1 2 11 expBob (by decide) (by decide) (by decide)
      (by decide) (by decide)).1,
   (removeExpense_cross_account dbTwo 1 2 11 expBob (by decide) (by decide) (by decide)
      (by decide) (by decide)).2.1,
   (removeExpense_cross_account dbTwo 1 2 11 expBob (by decide) (by decide) (by decide)
      (by decide) (by decide)).2.2.1⟩

/-! ## C8 -/

theorem renderRows_length (l : List CExpense) : ∀ b : ℚ, (renderRows b l).length = l.length := by
  induction l with
  | nil => intro b; rfl
  | cons e es ih =>
      intro b
      rw [renderRows]
      simp [ih]

theorem renderRows_get :
    ∀ (l : List CExpense) (b : ℚ) (i : Nat)
      (h1 : i < (renderRows b l).length) (h2 : i < l.length),
    ((renderRows b l).get ⟨i, h1⟩).balance
        = b - ((l.take (i + 1)).map (fun e => e.amount)).sum
    ∧ ((renderRows b l).get ⟨i, h1⟩).amount = (l.get ⟨i, h2⟩).amount
    ∧ ((renderRows b l).get ⟨i, h1⟩).date = (l.get ⟨i, h2⟩).date
    ∧ ((renderRows b l).get ⟨i, h1⟩).negative
        = decide (((renderRows b l).get ⟨i, h1⟩).balance < 0) := by
  intro l
  induction l with
  | nil =>
      intro b i h1 h2
      exact absurd h2 (by simp)
  | cons e es ih =>
      intro b i h1 h2
      cases i with
      | zero =>
          refine ⟨?_, rfl, rfl, rfl⟩
          show b - e.amount = b - (([e].map (fun e => e.amount)).sum)
          simp
      | succ i =>
          have h1' : i < (renderRows (b - e.amount) es).length := by
            have := h1
            rw [renderRows] at this
            simpa using this
          have h2' : i < es.length := by simpa using h2
          have hstep := ih (b - e.amount) i h1' h2'
          refine ⟨?_, hstep.2.1, hstep.2.2.1, hstep.2.2.2⟩
          have hbal := hstep.1
          show ((renderRows (b - e.amount) es).get ⟨i, h1'⟩).balance
              = b - (((e :: es).take (i + 1 + 1)).map (fun e => e.amount)).sum
          rw [hbal]
          simp [sub_sub]

theorem cDateLe_trans_on_parsed (x y z : CExpense)
    (hx : (jsDateValue x.date).isSome = true) (hy : (jsDateValue y.date).isSome = true)
    (hz : (jsDateValue z.date).isSome = true)
    (h1 : cDateLe x y = true) (h2 : cDateLe y z = true) : cDateLe x z = true := by
  rcases Option.isSome_iff_exists.mp hx with ⟨a, ha⟩
  rcases Option.isSome_iff_exists.mp hy with ⟨b, hb⟩
  rcases Option.isSome_iff_exists.mp hz with ⟨c, hc⟩
  rw [cDateLe, ha, hb, decide_eq_true_eq] at h1
  rw [cDateLe, hb, hc, decide_eq_true_eq] at h2
  rw [cDateLe, ha, hc, decide_eq_true_eq]
  exact Nat.le_trans h1 h2

theorem cDateLe_total (x y : CExpense) : cDateLe x y = true ∨ cDateLe y x = true := by
  rw [cDateLe, cDateLe]
  cases hx : jsDateValue x.date with
  | none => cases hy : jsDateValue y.date <;> simp
  | some a =>
      cases hy : jsDateValue y.date with
      | none => simp
      | some b =>
          rcases Nat.le_total a b with h | h
          · exact Or.inl (decide_eq_true h)
          · exact Or.inr (decide_eq_true h)

/-- C8. The client rendering algorithm sorts the in-memory list by date and
walks it with an accumulator initialised to the budget: the i-th rendered
row (0-based) carries the i-th sorted expense's data, its displayed balance
equals the budget minus the sum of the amounts of the sorted rows up to and
including row i, and exactly the rows whose running balance is negative are
flagged; the rendered order is a permutation of the list that is ascending
in date value whenever the dates are well-formed. -/
theorem updateTable_spec (budget : ℚ) (l : List CExpense) :
    (updateTable budget l).length = (sortBy cDateLe l).length
    ∧ (∀ (i : Nat) (h1 : i < (updateTable budget l).length)
          (h2 : i < (sortBy cDateLe l).length),
        ((updateTable budget l).get ⟨i, h1⟩).balance
            = budget - (((sortBy cDateLe l).take (i + 1)).map (fun e => e.amount)).sum
        ∧ ((updateTable budget l).get ⟨i, h1⟩).amount
            = ((sortBy cDateLe l).get ⟨i, h2⟩).amount
        ∧ ((updateTable budget l).get ⟨i, h1⟩).date
            = ((sortBy cDateLe l).get ⟨i, h2⟩).date
        ∧ (((updateTable budget l).get ⟨i, h1⟩).negative = true
            ↔ ((updateTable budget l).get ⟨i, h1⟩).balance < 0))
    ∧ (sortBy cDateLe l).Perm l
    ∧ ((∀ e ∈ l, (jsDateValue e.date).isSome = true) →
        (sortBy cDateLe l).Pairwise
          (fun a b => ∀ x y, jsDateValue a.date = some x → jsDateValue b.date = some y → x ≤ y)) := by
  refine ⟨renderRows_length (sortBy cDateLe l) budget, ?_, sortBy_perm cDateLe l, ?_⟩
  · intro i h1 h2
    have h := renderRows_get (sortBy cDateLe l) budget i h1 h2
    refine ⟨h.1, h.2.1, h.2.2.1, ?_⟩
    show ((renderRows budget (sortBy cDateLe l)).get ⟨i, h1⟩).negative = true
        ↔ ((renderRows budget (sortBy cDateLe l)).get ⟨i, h1⟩).balance < 0
    rw [h.2.2.2]
    simp
  · intro hparse
    have hp := @pairwise_sortBy CExpense cDateLe (fun e => (jsDateValue e.date).isSome = true) l
      (fun x y z hx hy hz hxy hyz => cDateLe_trans_on_parsed x y z hx hy hz hxy hyz)
      (fun x y _ _ => cDateLe_total x y)
      hparse
    refine hp.imp ?_
    intro a b hab x y hax hby
    rw [cDateLe, hax, hby, decide_eq_true_eq] at hab
    exact hab

def clientListW : List CExpense :=
  [{ date := "2024-01-10", item := "Tea", amount := 60, quantity := "1", mode := "Cash" },
   { date := "2024-01-02", item := "Rice", amount := 50, quantity := "1", mode := "Cash" }]

/-- C8 witness: a concrete two-row table with well-formed dates is rendered
in date order with correct running balances. -/
theorem updateTable_spec_witness :
    (∀ e ∈ clientListW, (jsDateValue e.date).isSome = true)
    ∧ (sortBy cDateLe clientListW).Pairwise
        (fun a b => ∀ x y, jsDateValue a.date = some x → jsDateValue b.date = some y → x ≤ y) :=
  ⟨by decide, (updateTable_spec 100 clientListW).2.2.2 (by decide)⟩

/-! ## C9 -/

theorem password_after_budget_save (db : DB) (u : User) (X : JVal) (uid : Nat)
    (hu : db.findUser u.id = some u) :
    ((db.saveUser { u with totalBudget := X } ["totalBudget"]).findUser uid).map
        (fun w => w.password)
      = (db.findUser uid).map (fun w => w.password) := by
  have hps : preSaveUser { u with totalBudget := X } ["totalBudget"]
      = { u with totalBudget := X } :=
    preSaveUser_of_not_password (by decide)
  rw [findUser_saveUser]
  cases h : db.findUser uid with
  | none => rfl
  | some w =>
      simp only [hps, Option.map_some]
      by_cases hw : w.id = u.id
      · have hfind : List.find? (fun x => x.id == uid) db.users = some w := h
        have hp0 := List.find?_some hfind
        have hp : (w.id == uid) = true := hp0
        have hpw : w.id = uid := beq_iff_eq.mp hp
        have huid : uid = u.id := by
          rw [← hpw, hw]
        have hwu : w = u := by
          rw [huid, hu] at h
          injection h with h
          exact h.symm
        subst hwu
        simp
      · simp [hw]

/-- C9. Saving the user record to persist a budget change never re-hashes or
alters the stored secret: the pre-save hook re-hashes only when the password
path was modified, and setBudget, addToBudget and clear modify only the
budget total, so every account's stored password hash is unchanged by each
of the three operations. -/
theorem budget_ops_preserve_password (db : DB) (u : User) (amount : JVal) (uid : Nat)
    (hu : db.findUser u.id = some u) :
    ((setBudget db u amount).2.findUser uid).map (fun w => w.password)
        = (db.findUser uid).map (fun w => w.password)
    ∧ ((addToBudget db u amount).2.findUser uid).map (fun w => w.password)
        = (db.findUser uid).map (fun w => w.password)
    ∧ ((clearAll db u).2.findUser uid).map (fun w => w.password)
        = (db.findUser uid).map (fun w => w.password) := by
  refine ⟨?_, ?_, ?_⟩
  · rw [setBudget]
    split
    · rfl
    · exact password_after_budget_save db u _ uid hu
  · rw [addToBudget]
    split
    · rfl
    · exact password_after_budget_save db u _ uid hu
  · exact password_after_budget_save (clearStep1 db u.id) u (.num 0) uid hu

/-- C9 witness: concrete budget operations leave every stored password
unchanged. -/
theorem budget_ops_preserve_password_witness :
    dbTwo.findUser aliceU.id = some aliceU
    ∧ ((setBudget dbTwo aliceU (.num 200)).2.findUser 2).map (fun w => w.password)
        = (dbTwo.findUser 2).map (fun w => w.password)
    ∧ ((clearAll dbTwo aliceU).2.findUser 1).map (fun w => w.password)
        = (dbTwo.findUser 1).map (fun w => w.password) :=
  ⟨by decide,
   (budget_ops_preserve_password dbTwo aliceU (.num 200) 2 (by decide)).1,
   (budget_ops_preserve_password dbTwo aliceU (.num 200) 1 (by decide)).2.2⟩
